import Mathlib

/-!
Shallow embedding of `src/opencl_serv.c` (PG-Strom OpenCL intermediation
server) and proofs about its worker loop, device scheduler, startup and
shutdown sequencing, signal handlers, zone-length computation and log writer.
-/

namespace OpenclServ

/-! ## Worker event loop (`pgstrom_opencl_event_loop`)

The C loop is
```
while (!pgstrom_clserv_exit_pending) {
    CHECK_FOR_INTERRUPTS();
    msg = pgstrom_dequeue_server_message();
    if (!msg) continue;
    msg->cb_process(msg);
}
```
Each iteration observes the shared shutdown flag and, when the flag is unset,
the result of `pgstrom_dequeue_server_message()`.  We embed the environment as
a finite list of such per-iteration observations (`Bool` = flag value read at
the top of the loop, `Option α` = dequeued message or none); the list doubles
as fuel.  The result records every callback invocation in order, plus whether
the loop returned (flag observed set) or merely ran out of fuel. -/

inductive LoopResult
  | terminated
  | outOfFuel
deriving DecidableEq, Repr

def pgstrom_opencl_event_loop {α : Type} :
    List (Bool × Option α) → List α × LoopResult
  | [] => ([], .outOfFuel)
  | (flag, deq) :: rest =>
      if flag then ([], .terminated)
      else
        match deq with
        | none => pgstrom_opencl_event_loop rest
        | some m =>
            let r := pgstrom_opencl_event_loop rest
            (m :: r.1, r.2)

/-! ## Device scheduler (`pgstrom_opencl_device_schedule`)

```
int pgstrom_opencl_device_schedule(pgstrom_message *message)
{
    static int index = 0;
    return index++ % opencl_num_devices;
}
```
The hidden `static int` is made explicit state.  A C `int` is 32-bit two's
complement; the post-increment wraps, and C's `%` truncates toward zero
(`Int.tmod`). -/

/-- Wrap an integer into the 32-bit signed range `[-2^31, 2^31)`,
modelling two's-complement `int` storage. -/
def int32wrap (z : Int) : Int := ((z + 2 ^ 31) % 2 ^ 32) - 2 ^ 31

/-- One call: returns the chosen device index (C truncated `%`) and the new
value of the static counter after the wrapping post-increment. -/
def pgstrom_opencl_device_schedule (index : Int) (numDevices : Int) :
    Int × Int :=
  (Int.tmod index numDevices, int32wrap (index + 1))

/-- Value of the static counter after `k` calls, starting from its
initializer `0`. -/
def scheduleCounter : Nat → Int
  | 0 => 0
  | k + 1 => (pgstrom_opencl_device_schedule (scheduleCounter k) 0).2

/-- Index returned by the `k`-th call (0-based) with `numDevices` devices. -/
def scheduleResult (k : Nat) (numDevices : Int) : Int :=
  (pgstrom_opencl_device_schedule (scheduleCounter k) numDevices).1

/-! ## Server main routine (`pgstrom_opencl_main`) and startup helpers

`pgstrom_opencl_main` is embedded as a trace-producing function over an
environment describing the outcomes of the external calls it makes
(`clCreateContext`, `clCreateCommandQueue`, `sysconf`, `malloc`,
`pthread_create`).  The trace records, in program order, the externally
visible actions; the second component reports a fatal startup abort
(`elog(ERROR)` longjmps out, and the failed `Assert` on the thread count
likewise stops startup). -/

/-- Fatal startup errors (spec taxonomy §7): `elog(ERROR, ...)` on context
or command-queue creation maps to `DeviceInitError`; the failing
`Assert(opencl_num_threads > 0)` maps to `WorkerCountInvalid`. -/
inductive ServErr
  | DeviceInitError
  | WorkerCountInvalid
deriving DecidableEq, Repr

/-- Externally visible actions of the server main routine, in program
order. -/
inductive Action
  | createContext
  | createQueue (i : Nat)
  | setupShmem (zoneLen : Nat)
  | logLine (s : String)
  | spawnWorker (i : Nat)
  | setExitFlag
  | cancelQueue
  | joinWorker (i : Nat)
  | closeQueue
deriving DecidableEq, Repr

/-- Environment of one run of the main routine: per-device maximum
allocation sizes (`dev_max_mem_alloc_size`), success of `clCreateContext`,
per-device success of `clCreateCommandQueue`, the
`pgstrom.opencl_num_threads` GUC value, the `sysconf(_SC_NPROCESSORS_ONLN)`
result, success of `malloc`, and per-thread success of `pthread_create`. -/
structure MainEnv where
  devMaxAlloc : List Nat
  ctxOk : Bool
  qOk : List Bool
  config : Int
  nproc : Int
  mallocOk : Bool
  createOk : Nat → Bool

/-- `LONG_MAX` on an LP64 host, the initial value of `zone_length`. -/
def LONG_MAX : Nat := 2 ^ 63 - 1

/-- The command-queue creation loop of `init_opencl_context_and_shmem`:
for each device create its queue (abort with `elog(ERROR)` i.e.
`DeviceInitError` on failure), then lower `zone_length` to the device's
maximum allocation size if it is smaller. -/
def cmdqCreate : Nat → List (Nat × Bool) → Nat →
    List Action × Option ServErr × Nat
  | _, [], zl => ([], none, zl)
  | i, (d, ok) :: rest, zl =>
      if ok then
        let r := cmdqCreate (i + 1) rest (if zl > d then d else zl)
        (.createQueue i :: r.1, r.2.1, r.2.2)
      else ([], some .DeviceInitError, zl)

/-- `init_opencl_context_and_shmem`: create the OpenCL context, then one
command queue per device while folding the zone length down, then hand the
zone length to `pgstrom_setup_shmem`.  Any creation failure aborts via
`elog(ERROR)`. -/
def init_opencl_context_and_shmem (env : MainEnv) :
    List Action × Option ServErr × Nat :=
  if env.ctxOk then
    let r := cmdqCreate 0 (env.devMaxAlloc.zip env.qOk) LONG_MAX
    match r.2.1 with
    | some e => (.createContext :: r.1, some e, r.2.2)
    | none =>
        (.createContext :: r.1
          ++ [.logLine "PG-Strom: setting up shared memory",
              .setupShmem r.2.2],
         none, r.2.2)
  else ([.createContext], some .DeviceInitError, 0)

/-- The `pthread_create` loop of `pgstrom_opencl_main`: create workers in
order, stopping (`break`) at the first failure; returns the spawn actions
and the final value of `i` (the number of threads actually started). -/
def createThreads (ok : Nat → Bool) : Nat → Nat → List Action × Nat
  | i, n =>
      if h : i < n then
        if ok i then
          let r := createThreads ok (i + 1) n
          (.spawnWorker i :: r.1, r.2)
        else ([], i)
      else ([], i)
termination_by i n => n - i

/-- `pgstrom_opencl_main`: initialize context/queues/shmem, resolve the
worker count (GUC value, or `sysconf` processor count when the GUC is 0;
`Assert(> 0)`), `malloc` the handle array (log and return on failure),
spawn workers breaking on the first failure (then log the failure, set the
shared exit flag and cancel the server queue), join the started workers in
reverse-creation order, and finally close the server queue. -/
def pgstrom_opencl_main (env : MainEnv) : List Action × Option ServErr :=
  let ini := init_opencl_context_and_shmem env
  match ini.2.1 with
  | some e => (ini.1, some e)
  | none =>
      let acts0 := ini.1 ++ [.logLine "Starting PG-Strom OpenCL Server"]
      let n : Int := if env.config = 0 then env.nproc else env.config
      if n ≤ 0 then (acts0, some .WorkerCountInvalid)
      else if env.mallocOk = false then
        (acts0 ++ [.logLine "out of memory"], none)
      else
        let nn := n.toNat
        let ct := createThreads env.createOk 0 nn
        let acts1 := acts0 ++ ct.1 ++
          (if ct.2 < nn then
             [.logLine "failed to create server threads",
              .setExitFlag, .cancelQueue]
           else [.logLine "server threads are up"])
        let acts2 := acts1 ++ (List.range ct.2).reverse.map .joinWorker
        (acts2 ++ [.logLine "Stopping PG-Strom OpenCL Server", .closeQueue],
         none)

/-- Indices of `joinWorker` actions, in trace order. -/
def joinsOf (acts : List Action) : List Nat :=
  acts.filterMap fun a =>
    match a with
    | .joinWorker i => some i
    | _ => none

/-- Indices of `spawnWorker` actions, in trace order. -/
def spawnsOf (acts : List Action) : List Nat :=
  acts.filterMap fun a =>
    match a with
    | .spawnWorker i => some i
    | _ => none

/-- Indices of `createQueue` actions, in trace order. -/
def queuesOf (acts : List Action) : List Nat :=
  acts.filterMap fun a =>
    match a with
    | .createQueue i => some i
    | _ => none

/-- Is this action a `joinWorker`? -/
def isJoin : Action → Bool
  | .joinWorker _ => true
  | _ => false

/-- Is this action a `spawnWorker`? -/
def isSpawn : Action → Bool
  | .spawnWorker _ => true
  | _ => false

/-- Is this action a `createQueue`? -/
def isQueue : Action → Bool
  | .createQueue _ => true
  | _ => false

/-- Is this action `closeQueue`? -/
def isClose : Action → Bool
  | .closeQueue => true
  | _ => false

/-- `true` when some `joinWorker` action occurs at or after the first
`closeQueue` action of the trace. -/
def joinAfterClose (acts : List Action) : Bool :=
  (acts.dropWhile fun a => !isClose a).any isJoin

/-- `true` when some `createQueue` action occurs at or after the first
`spawnWorker` action of the trace. -/
def queueAfterSpawn (acts : List Action) : Bool :=
  (acts.dropWhile fun a => !isSpawn a).any isQueue

/-! ## Signal handlers and the shared shutdown flag

```
static void pgstrom_opencl_sigterm(SIGNAL_ARGS)
{
    pgstrom_clserv_exit_pending = true;
    pgstrom_cancel_server_loop();
    clserv_log("Got SIGTERM");
}
```
(`pgstrom_opencl_sighup` is identical up to the logged text.)  The shared
state touched by the file is embedded as a record: the
`pgstrom_clserv_exit_pending` flag, whether `pgstrom_cancel_server_loop()`
has been called (the queue-cancellation request; the function itself is
external to this file, we record its invocation), and the log lines. -/

structure ServState where
  exitPending : Bool
  cancelRequested : Bool
  logged : List String
deriving DecidableEq, Repr

/-- SIGTERM handler: set the shared exit flag, request queue cancellation,
log. -/
def pgstrom_opencl_sigterm (s : ServState) : ServState :=
  { s with exitPending := true, cancelRequested := true,
           logged := s.logged ++ ["Got SIGTERM"] }

/-- SIGHUP handler: set the shared exit flag, request queue cancellation,
log. -/
def pgstrom_opencl_sighup (s : ServState) : ServState :=
  { s with exitPending := true, cancelRequested := true,
           logged := s.logged ++ ["Got SIGHUP"] }

/-- The three places in the file that write
`pgstrom_clserv_exit_pending`: the two signal handlers and the
partial-startup-failure branch of `pgstrom_opencl_main` (lines 249-251). -/
inductive ServOp
  | sigterm
  | sighup
  | startupFailure
deriving DecidableEq, Repr

/-- Effect of each flag-writing operation on the shared state. -/
def applyServOp : ServOp → ServState → ServState
  | .sigterm, s => pgstrom_opencl_sigterm s
  | .sighup, s => pgstrom_opencl_sighup s
  | .startupFailure, s =>
      { s with logged := s.logged ++ ["failed to create server threads"],
               exitPending := true, cancelRequested := true }

/-- Successive values of `pgstrom_clserv_exit_pending` along a sequence of
flag-writing operations, starting from state `s` (the state itself
included first). -/
def flagTrace : List ServOp → ServState → List Bool
  | [], s => [s.exitPending]
  | op :: ops, s => s.exitPending :: flagTrace ops (applyServOp op s)

/-- A Boolean trace never falls back from `true` to `false`. -/
def monotoneBools : List Bool → Bool
  | [] => true
  | [_] => true
  | a :: b :: t => (!a || b) && monotoneBools (b :: t)

/-- Number of `false → true` transitions in a Boolean trace. -/
def countRises : List Bool → Nat
  | [] => 0
  | [_] => 0
  | a :: b :: t => (if a = false ∧ b = true then 1 else 0) + countRises (b :: t)

/-! ## Log writer (`__clserv_log`)

```
size_t  ofs = 0;
char    buf[8192];
ofs += snprintf(buf+ofs, sizeof(buf)-ofs, "LOG: (%s:%d) ", ...);
ofs += vsnprintf(buf+ofs, sizeof(buf)-ofs, fmt, ap);
ofs += snprintf(buf+ofs, sizeof(buf)-ofs, "\n");
```
`snprintf(dst, size, ...)` stores at most `size-1` formatted bytes plus a
terminating NUL (nothing when `size == 0`) but RETURNS the length the full
output would have had.  `ofs` therefore accumulates untruncated lengths,
while `sizeof(buf)-ofs` is computed in `size_t` (64-bit unsigned,
wrapping).  We model each write by its destination offset and the
would-be length of its formatted output (`pLen` for the `LOG: (...)`
header, `mLen` for the user message, `1` for the newline). -/

/-- `sizeof(buf)` in `__clserv_log`. -/
def BUFSZ : Nat := 8192

/-- The C `size_t` value of `sizeof(buf) - ofs` (64-bit wraparound). -/
def sizeArg (ofs : Nat) : Nat := (2 ^ 64 + BUFSZ - ofs) % 2 ^ 64

/-- Number of bytes `snprintf`/`vsnprintf` stores at the destination for a
would-be output length `wouldLen` and size argument `size`: nothing when
`size = 0`, otherwise `min wouldLen (size-1)` characters plus the NUL. -/
def snprintfStores (wouldLen size : Nat) : Nat :=
  if size = 0 then 0 else Nat.min wouldLen (size - 1) + 1

/-- Does the write starting at `buf+ofs` stay inside `buf[0..BUFSZ-1]`? -/
def writeWithinBuf (ofs wouldLen : Nat) : Bool :=
  snprintfStores wouldLen (sizeArg ofs) = 0
  || ofs + snprintfStores wouldLen (sizeArg ofs) ≤ BUFSZ

/-- The `(offset, would-be length)` pairs of the three formatted writes of
`__clserv_log`, given the would-be header length `pLen` and the would-be
message length `mLen`: each `ofs` is the sum of the previous calls'
RETURN values. -/
def clservLogWrites (pLen mLen : Nat) : List (Nat × Nat) :=
  [(0, pLen), (pLen, mLen), (pLen + mLen, 1)]

/-- All three formatted writes of `__clserv_log` stay inside `buf`. -/
def clservLogSafe (pLen mLen : Nat) : Bool :=
  (clservLogWrites pLen mLen).all fun w => writeWithinBuf w.1 w.2

/-! ## Concrete environments used to instantiate the theorems -/

def envC3 : MainEnv :=
  { devMaxAlloc := [1024], ctxOk := true, qOk := [true],
    config := 3, nproc := 1, mallocOk := true,
    createOk := fun j => decide (j < 2) }

def envC5 : MainEnv :=
  { devMaxAlloc := [], ctxOk := true, qOk := [],
    config := 0, nproc := -1, mallocOk := true, createOk := fun _ => true }

def envC6 : MainEnv :=
  { devMaxAlloc := [100, 200], ctxOk := true, qOk := [true, false],
    config := 1, nproc := 1, mallocOk := true, createOk := fun _ => true }

def envC8 : MainEnv :=
  { devMaxAlloc := [2 ^ 30, 2 ^ 29], ctxOk := true, qOk := [true, true],
    config := 1, nproc := 1, mallocOk := true, createOk := fun _ => true }

def envC10 : MainEnv :=
  { devMaxAlloc := [64], ctxOk := true, qOk := [true],
    config := 2, nproc := 1, mallocOk := false, createOk := fun _ => true }


end OpenclServ

namespace OpenclServ

/-! ## Helper lemmas -/

/-- The static counter after `k` calls is just `k` wrapped to 32-bit
signed range: the post-increment adds one, modulo wrap. -/
theorem scheduleCounter_eq (k : Nat) : scheduleCounter k = int32wrap k := by
  induction k with
  | zero => decide
  | succ k ih =>
      simp only [scheduleCounter, pgstrom_opencl_device_schedule, ih, int32wrap]
      push_cast
      omega



theorem mem_cmdqCreate :
    ∀ {ps : List (Nat × Bool)} {i zl : Nat} {a : Action},
      a ∈ (cmdqCreate i ps zl).1 → ∃ j, a = .createQueue j := by
  intro ps
  induction ps with
  | nil => intro i zl a h; simp [cmdqCreate] at h
  | cons p rest ih =>
      intro i zl a h
      obtain ⟨d, ok⟩ := p
      cases ok with
      | true =>
          rw [cmdqCreate] at h
          simp only [if_pos] at h
          rcases List.mem_cons.mp h with rfl | h2
          · exact ⟨i, rfl⟩
          · exact ih h2
      | false => simp [cmdqCreate] at h

theorem mem_init {env : MainEnv} {a : Action}
    (h : a ∈ (init_opencl_context_and_shmem env).1) :
    a = .createContext ∨ (∃ j, a = .createQueue j)
      ∨ (∃ s, a = .logLine s) ∨ (∃ z, a = .setupShmem z) := by
  simp only [init_opencl_context_and_shmem] at h
  split at h

  · split at h
    · rcases List.mem_cons.mp h with rfl | h2
      · exact .inl rfl
      · exact .inr (.inl (mem_cmdqCreate h2))
    · rcases List.mem_cons.mp h with rfl | h2
      · exact .inl rfl
      · rcases List.mem_append.mp h2 with h3 | h3
        · exact .inr (.inl (mem_cmdqCreate h3))
        · rcases List.mem_cons.mp h3 with rfl | h4
          · exact .inr (.inr (.inl ⟨_, rfl⟩))
          · rcases List.mem_singleton.mp h4 with rfl
            exact .inr (.inr (.inr ⟨_, rfl⟩))
  · rcases List.mem_singleton.mp h with rfl
    exact .inl rfl


theorem createThreads_spec (ok : Nat → Bool) :
    ∀ (m a n : Nat), n - a = m →
      (createThreads ok a n).1
        = (List.range' a ((createThreads ok a n).2 - a)).map Action.spawnWorker
      ∧ a ≤ (createThreads ok a n).2 := by
  intro m
  induction m with
  | zero =>
      intro a n hm
      rw [createThreads]
      have : ¬ a < n := by omega
      simp [this]
  | succ m ih =>
      intro a n hm
      rw [createThreads]
      have hlt : a < n := by omega
      by_cases hok : ok a
      · have ihr := ih (a + 1) n (by omega)
        simp only [hlt, dif_pos, hok, if_pos]
        constructor
        · have h1 : (createThreads ok (a+1) n).2 - a
              = ((createThreads ok (a+1) n).2 - (a+1)) + 1 := by omega
          rw [h1, List.range'_succ, List.map_cons]
          exact congrArg _ ihr.1
        · omega
      · simp only [Bool.not_eq_true] at hok
        simp [hlt, hok]

theorem createThreads_fail (ok : Nat → Bool) (f n : Nat) (hfn : f < n)
    (hf : ok f = false) :
    ∀ (m a : Nat), f - a = m → a ≤ f →
      (∀ j, a ≤ j → j < f → ok j = true) →
      createThreads ok a n = ((List.range' a (f - a)).map Action.spawnWorker, f) := by
  intro m
  induction m with
  | zero =>
      intro a hm haf hall
      have : a = f := by omega
      subst this
      rw [createThreads]
      simp [Nat.lt_of_le_of_lt haf hfn, hf]
  | succ m ih =>
      intro a hm haf hall
      have hlt : a < n := by omega
      have hok : ok a = true := hall a le_rfl (by omega)
      rw [createThreads]
      simp only [hlt, dif_pos, hok, if_pos]
      have ihr := ih (a + 1) (by omega) (by omega)
        (fun j h1 h2 => hall j (by omega) h2)
      rw [ihr]
      have h1 : f - a = (f - (a+1)) + 1 := by omega
      rw [h1, List.range'_succ, List.map_cons]

theorem createThreads_all_ok (ok : Nat → Bool) (n : Nat) :
    ∀ (m a : Nat), n - a = m → a ≤ n →
      (∀ j, a ≤ j → j < n → ok j = true) →
      createThreads ok a n = ((List.range' a (n - a)).map Action.spawnWorker, n) := by
  intro m
  induction m with
  | zero =>
      intro a hm han hall
      have : a = n := by omega
      subst this
      rw [createThreads]
      simp
  | succ m ih =>
      intro a hm han hall
      have hlt : a < n := by omega
      have hok : ok a = true := hall a le_rfl hlt
      rw [createThreads]
      simp only [hlt, dif_pos, hok, if_pos]
      rw [ih (a + 1) (by omega) (by omega) (fun j h1 h2 => hall j (by omega) h2)]
      have h1 : n - a = (n - (a+1)) + 1 := by omega
      rw [h1, List.range'_succ, List.map_cons]

theorem cmdqCreate_all_ok :
    ∀ (ps : List (Nat × Bool)) (i zl : Nat), (∀ p ∈ ps, p.2 = true) →
      cmdqCreate i ps zl
        = ((List.range' i ps.length).map Action.createQueue, none,
           ps.foldl (fun z p => if z > p.1 then p.1 else z) zl) := by
  intro ps
  induction ps with
  | nil => intro i zl _; simp [cmdqCreate]
  | cons p rest ih =>
      intro i zl hall
      obtain ⟨d, ok⟩ := p
      have hok : ok = true := hall (d, ok) (List.mem_cons_self _ _)
      subst hok
      rw [cmdqCreate]
      simp only [if_pos]
      rw [ih (i + 1) (if zl > d then d else zl)
        (fun q hq => hall q (List.mem_cons_of_mem _ hq))]
      simp [List.range'_succ]

theorem cmdqCreate_fail :
    ∀ (ps : List (Nat × Bool)) (i zl : Nat), (∃ p ∈ ps, p.2 = false) →
      (cmdqCreate i ps zl).2.1 = some .DeviceInitError := by
  intro ps
  induction ps with
  | nil => intro i zl h; simp at h
  | cons p rest ih =>
      intro i zl h
      obtain ⟨d, ok⟩ := p
      cases ok with
      | false => simp [cmdqCreate]
      | true =>
          rw [cmdqCreate]
          simp only [if_pos]
          apply ih
          rcases h with ⟨q, hq, hq2⟩
          rcases List.mem_cons.mp hq with rfl | hq3
          · simp at hq2
          · exact ⟨q, hq3, hq2⟩


theorem zip_foldl_fst :
    ∀ (ds : List Nat) (qs : List Bool) (zl : Nat), ds.length = qs.length →
      (ds.zip qs).foldl (fun z p => if z > p.1 then p.1 else z) zl
        = ds.foldl (fun z d => if z > d then d else z) zl := by
  intro ds
  induction ds with
  | nil => intro qs zl _; simp
  | cons d rest ih =>
      intro qs zl hlen
      cases qs with
      | nil => simp at hlen
      | cons q qrest =>
          simp only [List.zip_cons_cons, List.foldl_cons]
          exact ih qrest _ (by simpa using hlen)

theorem init_ok (env : MainEnv) (hctx : env.ctxOk = true) (hq : false ∉ env.qOk) :
    init_opencl_context_and_shmem env
      = (Action.createContext ::
          (List.range' 0 (env.devMaxAlloc.zip env.qOk).length).map Action.createQueue
          ++ [.logLine "PG-Strom: setting up shared memory",
              .setupShmem ((env.devMaxAlloc.zip env.qOk).foldl
                (fun z p => if z > p.1 then p.1 else z) LONG_MAX)],
         none,
         (env.devMaxAlloc.zip env.qOk).foldl
           (fun z p => if z > p.1 then p.1 else z) LONG_MAX) := by
  have hall : ∀ p ∈ env.devMaxAlloc.zip env.qOk, p.2 = true := by
    intro p hp
    have h2 := (List.of_mem_zip hp).2
    cases hsnd : p.2 with
    | true => rfl
    | false => exact absurd (hsnd ▸ h2) hq
  simp only [init_opencl_context_and_shmem, hctx, if_pos]
  rw [cmdqCreate_all_ok _ _ _ hall]

theorem init_fail (env : MainEnv) (hctx : env.ctxOk = true)
    (hq : false ∈ env.qOk) (hlen : env.qOk.length = env.devMaxAlloc.length) :
    (init_opencl_context_and_shmem env).2.1 = some .DeviceInitError := by
  have hex : ∃ p ∈ env.devMaxAlloc.zip env.qOk, p.2 = false := by
    clear hctx
    obtain ⟨k, hk, hget⟩ := List.mem_iff_getElem.mp hq
    have hk2 : k < env.devMaxAlloc.length := by omega
    refine ⟨(env.devMaxAlloc[k], env.qOk[k]), ?_, hget⟩
    rw [List.mem_iff_getElem]
    refine ⟨k, ?_, ?_⟩
    · simp [List.length_zip]; omega
    · simp [List.getElem_zip]
  simp only [init_opencl_context_and_shmem, hctx, if_pos]
  rw [show (cmdqCreate 0 (env.devMaxAlloc.zip env.qOk) LONG_MAX).2.1
        = some ServErr.DeviceInitError from cmdqCreate_fail _ 0 LONG_MAX hex]

theorem joinsOf_eq_nil {l : List Action} (h : ∀ a ∈ l, isJoin a = false) :
    joinsOf l = [] := by
  refine List.filterMap_eq_nil_iff.mpr fun a ha => ?_
  have := h a ha
  cases a <;> simp_all [isJoin, joinsOf]

theorem spawnsOf_eq_nil {l : List Action} (h : ∀ a ∈ l, isSpawn a = false) :
    spawnsOf l = [] := by
  refine List.filterMap_eq_nil_iff.mpr fun a ha => ?_
  have := h a ha
  cases a <;> simp_all [isSpawn, spawnsOf]

theorem queuesOf_eq_nil {l : List Action} (h : ∀ a ∈ l, isQueue a = false) :
    queuesOf l = [] := by
  refine List.filterMap_eq_nil_iff.mpr fun a ha => ?_
  have := h a ha
  cases a <;> simp_all [isQueue, queuesOf]

theorem init_no_join (env : MainEnv) :
    ∀ a ∈ (init_opencl_context_and_shmem env).1, isJoin a = false := by
  intro a ha
  rcases mem_init ha with rfl | ⟨j, rfl⟩ | ⟨s, rfl⟩ | ⟨z, rfl⟩ <;> rfl

theorem init_no_spawn (env : MainEnv) :
    ∀ a ∈ (init_opencl_context_and_shmem env).1, isSpawn a = false := by
  intro a ha
  rcases mem_init ha with rfl | ⟨j, rfl⟩ | ⟨s, rfl⟩ | ⟨z, rfl⟩ <;> rfl

theorem init_no_close (env : MainEnv) :
    ∀ a ∈ (init_opencl_context_and_shmem env).1, isClose a = false := by
  intro a ha
  rcases mem_init ha with rfl | ⟨j, rfl⟩ | ⟨s, rfl⟩ | ⟨z, rfl⟩ <;> rfl

theorem map_spawn_flags (l : List Nat) :
    ∀ a ∈ l.map Action.spawnWorker,
      isJoin a = false ∧ isQueue a = false ∧ isClose a = false := by
  intro a ha
  obtain ⟨j, _, rfl⟩ := List.mem_map.mp ha
  exact ⟨rfl, rfl, rfl⟩

theorem map_join_flags (l : List Nat) :
    ∀ a ∈ l.map Action.joinWorker,
      isSpawn a = false ∧ isQueue a = false ∧ isClose a = false := by
  intro a ha
  obtain ⟨j, _, rfl⟩ := List.mem_map.mp ha
  exact ⟨rfl, rfl, rfl⟩

theorem joinsOf_map_join (l : List Nat) : joinsOf (l.map .joinWorker) = l := by
  induction l with
  | nil => rfl
  | cons x xs ih => simp [joinsOf, List.filterMap_cons] at ih ⊢; exact ih

theorem spawnsOf_map_spawn (l : List Nat) : spawnsOf (l.map .spawnWorker) = l := by
  induction l with
  | nil => rfl
  | cons x xs ih => simp [spawnsOf, List.filterMap_cons] at ih ⊢; exact ih

theorem queuesOf_map_queue (l : List Nat) : queuesOf (l.map .createQueue) = l := by
  induction l with
  | nil => rfl
  | cons x xs ih => simp [queuesOf, List.filterMap_cons] at ih ⊢; exact ih

theorem dropWhile_append_of_all {α : Type} (p : α → Bool) (l1 l2 : List α)
    (h : ∀ a ∈ l1, p a = true) :
    (l1 ++ l2).dropWhile p = l2.dropWhile p := by
  rw [List.dropWhile_append]
  simp [List.dropWhile_eq_nil_iff.mpr h]

theorem joinAfterClose_append_last (pre : List Action)
    (h : ∀ a ∈ pre, isClose a = false) :
    joinAfterClose (pre ++ [.closeQueue]) = false := by
  rw [joinAfterClose,
      dropWhile_append_of_all _ pre _ (fun a ha => by rw [Bool.not_eq_true', h a ha])]
  rfl

theorem joinAfterClose_of_no_close (l : List Action)
    (h : ∀ a ∈ l, isClose a = false) :
    joinAfterClose l = false := by
  rw [joinAfterClose,
      List.dropWhile_eq_nil_iff.mpr (fun a ha => by rw [Bool.not_eq_true', h a ha])]
  rfl

theorem queueAfterSpawn_of_no_spawn (l : List Action)
    (h : ∀ a ∈ l, isSpawn a = false) :
    queueAfterSpawn l = false := by
  rw [queueAfterSpawn,
      List.dropWhile_eq_nil_iff.mpr (fun a ha => by rw [Bool.not_eq_true', h a ha])]
  rfl

theorem queueAfterSpawn_split (l1 l2 : List Action)
    (h1 : ∀ a ∈ l1, isSpawn a = false) (h2 : ∀ a ∈ l2, isQueue a = false) :
    queueAfterSpawn (l1 ++ l2) = false := by
  rw [queueAfterSpawn,
      dropWhile_append_of_all _ l1 _ (fun a ha => by rw [Bool.not_eq_true', h1 a ha])]
  exact List.any_eq_false.mpr fun a ha => by
    rw [h2 a ((List.dropWhile_sublist _).subset ha)]; exact Bool.false_ne_true


theorem main_eq_of_init_fail (env : MainEnv) (e : ServErr)
    (h : (init_opencl_context_and_shmem env).2.1 = some e) :
    pgstrom_opencl_main env = ((init_opencl_context_and_shmem env).1, some e) := by
  simp only [pgstrom_opencl_main, h]

theorem main_eq_invalid_count (env : MainEnv)
    (h : (init_opencl_context_and_shmem env).2.1 = none)
    (hn : (if env.config = 0 then env.nproc else env.config) ≤ 0) :
    pgstrom_opencl_main env
      = ((init_opencl_context_and_shmem env).1
          ++ [.logLine "Starting PG-Strom OpenCL Server"],
         some .WorkerCountInvalid) := by
  simp only [pgstrom_opencl_main, h, if_pos hn]

theorem main_eq_oom (env : MainEnv)
    (h : (init_opencl_context_and_shmem env).2.1 = none)
    (hn : ¬ (if env.config = 0 then env.nproc else env.config) ≤ 0)
    (hm : env.mallocOk = false) :
    pgstrom_opencl_main env
      = ((init_opencl_context_and_shmem env).1
          ++ [.logLine "Starting PG-Strom OpenCL Server",
              .logLine "out of memory"],
         none) := by
  simp only [pgstrom_opencl_main, h, if_neg hn, hm]
  simp

theorem main_eq_run (env : MainEnv)
    (h : (init_opencl_context_and_shmem env).2.1 = none)
    (hn : ¬ (if env.config = 0 then env.nproc else env.config) ≤ 0)
    (hm : env.mallocOk = true) :
    pgstrom_opencl_main env
      = ((init_opencl_context_and_shmem env).1
          ++ [.logLine "Starting PG-Strom OpenCL Server"]
          ++ (createThreads env.createOk 0
               (if env.config = 0 then env.nproc else env.config).toNat).1
          ++ (if (createThreads env.createOk 0
                   (if env.config = 0 then env.nproc else env.config).toNat).2
                < (if env.config = 0 then env.nproc else env.config).toNat then
                [.logLine "failed to create server threads",
                 .setExitFlag, .cancelQueue]
              else [.logLine "server threads are up"])
          ++ (List.range (createThreads env.createOk 0
               (if env.config = 0 then env.nproc else env.config).toNat).2).reverse.map
               .joinWorker
          ++ [.logLine "Stopping PG-Strom OpenCL Server", .closeQueue],
         none) := by
  simp only [pgstrom_opencl_main, h, if_neg hn, hm]
  simp [List.append_assoc]



theorem joinsOf_append (l1 l2 : List Action) :
    joinsOf (l1 ++ l2) = joinsOf l1 ++ joinsOf l2 :=
  List.filterMap_append l1 l2 _

theorem spawnsOf_append (l1 l2 : List Action) :
    spawnsOf (l1 ++ l2) = spawnsOf l1 ++ spawnsOf l2 :=
  List.filterMap_append l1 l2 _

theorem queuesOf_append (l1 l2 : List Action) :
    queuesOf (l1 ++ l2) = queuesOf l1 ++ queuesOf l2 :=
  List.filterMap_append l1 l2 _

theorem all_append {α : Type} (p : α → Bool) {l1 l2 : List α}
    (h1 : ∀ a ∈ l1, p a = false) (h2 : ∀ a ∈ l2, p a = false) :
    ∀ a ∈ l1 ++ l2, p a = false :=
  fun a ha => (List.mem_append.mp ha).elim (h1 a) (h2 a)

theorem joinAfterClose_append (l1 l2 : List Action)
    (h1 : ∀ a ∈ l1, isClose a = false) (h2 : joinAfterClose l2 = false) :
    joinAfterClose (l1 ++ l2) = false := by
  rw [joinAfterClose,
      dropWhile_append_of_all _ l1 _ (fun a ha => by rw [Bool.not_eq_true', h1 a ha])]
  exact h2


/-- C1: the worker event loop dequeues while the shared shutdown flag is
unset; a `none` dequeue just continues (the flag is re-checked), a message
has its callback invoked synchronously exactly once — the invocation list
equals, in order, the messages dequeued during the iterations before the
first flag-set observation — and the loop returns (rather than running out
of fuel) exactly when some iteration observes the flag set. -/
theorem C1_event_loop {α : Type} (obs : List (Bool × Option α)) :
    (pgstrom_opencl_event_loop obs).1
      = (obs.takeWhile fun p => !p.1).filterMap Prod.snd
    ∧ ((pgstrom_opencl_event_loop obs).2 = .terminated ↔ ∃ p ∈ obs, p.1 = true) := by
  induction obs with
  | nil => simp [pgstrom_opencl_event_loop]
  | cons hd tl ih =>
      obtain ⟨flag, deq⟩ := hd
      by_cases hf : flag
      · subst hf
        simp [pgstrom_opencl_event_loop, List.takeWhile]
      · simp only [Bool.not_eq_true] at hf; subst hf
        cases deq with
        | none =>
            simpa [pgstrom_opencl_event_loop, List.takeWhile] using ih
        | some m =>
            simp [pgstrom_opencl_event_loop, List.takeWhile, ih.1, ih.2]

/-- C2: evaluation of the scheduler at the counter-wrap point.  With 3
devices, the call made once the static `int` counter has wrapped to
`-2^31` (the `2^31+1`-st call) returns `-2`: a negative value, not an
index in `[0, 3)` and not the round-robin value `2^31 % 3 = 2`.  The
claim that every call returns an index in `[0, C)` even across counter
wrap is therefore false of the code. -/
theorem C2_schedule_wrap_negative :
    scheduleResult (2 ^ 31) 3 = -2 ∧ ¬ (0 ≤ scheduleResult (2 ^ 31) 3) := by
  simp only [scheduleResult, pgstrom_opencl_device_schedule, scheduleCounter_eq]
  decide

end OpenclServ
namespace OpenclServ

theorem mainTraceStartsWithInit (env : MainEnv) :
    ∃ rest, (pgstrom_opencl_main env).1
        = (init_opencl_context_and_shmem env).1 ++ rest
      ∧ ∀ a ∈ rest, isQueue a = false := by
  rcases hini : (init_opencl_context_and_shmem env).2.1 with _ | e
  · by_cases hn : (if env.config = 0 then env.nproc else env.config) ≤ 0
    · rw [main_eq_invalid_count env hini hn]
      exact ⟨_, rfl, by intro a ha; fin_cases ha; rfl⟩
    · by_cases hm : env.mallocOk = false
      · rw [main_eq_oom env hini hn hm]
        exact ⟨[Action.logLine "Starting PG-Strom OpenCL Server",
                Action.logLine "out of memory"], rfl,
               by intro a ha; fin_cases ha <;> rfl⟩
      · have hm2 : env.mallocOk = true := by
          cases hmv : env.mallocOk
          · exact absurd hmv hm
          · rfl
        rw [main_eq_run env hini hn hm2]
        set nn := (if env.config = 0 then env.nproc else env.config).toNat with hnn
        obtain ⟨hct1, -⟩ := createThreads_spec env.createOk (nn - 0) 0 nn rfl
        refine ⟨[Action.logLine "Starting PG-Strom OpenCL Server"]
            ++ (createThreads env.createOk 0 nn).1
            ++ (if (createThreads env.createOk 0 nn).2 < nn then
                  [Action.logLine "failed to create server threads",
                   Action.setExitFlag, Action.cancelQueue]
                else [Action.logLine "server threads are up"])
            ++ (List.range (createThreads env.createOk 0 nn).2).reverse.map
                 Action.joinWorker
            ++ [Action.logLine "Stopping PG-Strom OpenCL Server",
                Action.closeQueue],
          by simp [List.append_assoc], ?_⟩
        intro a ha
        simp only [List.append_assoc, List.mem_append] at ha
        rcases ha with ha | ha | ha | ha | ha
        · fin_cases ha; rfl
        · rw [hct1] at ha; exact (map_spawn_flags _ a ha).2.1
        · split at ha <;> (fin_cases ha <;> rfl)
        · exact (map_join_flags _ a ha).2.1
        · fin_cases ha <;> rfl
  · rw [main_eq_of_init_fail env e hini]
    exact ⟨[], by simp, by intro a ha; simp at ha⟩

theorem foldl_zone_eq_min (ds : List Nat) :
    ∀ zl : Nat, ds.foldl (fun z d => if z > d then d else z) zl
      = ds.foldl Nat.min zl := by
  have hstep : ∀ z d : Nat, (if z > d then d else z) = Nat.min z d := by
    intro z d
    rw [show Nat.min z d = if z ≤ d then z else d from rfl]
    split_ifs <;> omega
  induction ds with
  | nil => intro zl; rfl
  | cons d rest ih =>
      intro zl
      rw [List.foldl_cons, List.foldl_cons, hstep]
      exact ih _

theorem foldl_min_le_init (ds : List Nat) :
    ∀ zl : Nat, ds.foldl Nat.min zl ≤ zl := by
  induction ds with
  | nil => intro zl; exact le_rfl
  | cons d rest ih =>
      intro zl
      exact le_trans (ih (Nat.min zl d)) (Nat.min_le_left _ _)

theorem foldl_min_le_mem (ds : List Nat) :
    ∀ (zl d : Nat), d ∈ ds → ds.foldl Nat.min zl ≤ d := by
  induction ds with
  | nil => intro zl d hd; simp at hd
  | cons x rest ih =>
      intro zl d hd
      rcases List.mem_cons.mp hd with rfl | hd2
      · exact le_trans (foldl_min_le_init rest _) (Nat.min_le_right _ _)
      · exact ih _ _ hd2

/-- C3: if creating worker `i` of `n` fails after workers `0..i-1`
started, startup is all-or-nothing: the failure is logged (the
`WorkerStartupFailed` report), the shared shutdown flag is flipped, queue
cancellation is requested, exactly workers `0..i-1` were spawned and all
of them are joined in reverse order, so no worker from `0..i-1` continues
processing afterwards. -/
theorem C3_partial_startup_all_or_nothing (env : MainEnv) (i : Nat)
    (hctx : env.ctxOk = true) (hq : false ∉ env.qOk)
    (hn : ¬ (if env.config = 0 then env.nproc else env.config) ≤ 0)
    (hm : env.mallocOk = true)
    (hi : i < (if env.config = 0 then env.nproc else env.config).toNat)
    (hok : ∀ j < i, env.createOk j = true)
    (hfail : env.createOk i = false) :
    (pgstrom_opencl_main env).2 = none
    ∧ Action.logLine "failed to create server threads"
        ∈ (pgstrom_opencl_main env).1
    ∧ Action.setExitFlag ∈ (pgstrom_opencl_main env).1
    ∧ Action.cancelQueue ∈ (pgstrom_opencl_main env).1
    ∧ spawnsOf (pgstrom_opencl_main env).1 = List.range i
    ∧ joinsOf (pgstrom_opencl_main env).1 = (List.range i).reverse := by
  have hini : (init_opencl_context_and_shmem env).2.1 = none := by
    rw [init_ok env hctx hq]
  set nn := (if env.config = 0 then env.nproc else env.config).toNat with hnn
  have hct : createThreads env.createOk 0 nn
      = ((List.range' 0 (i - 0)).map Action.spawnWorker, i) :=
    createThreads_fail env.createOk i nn hi hfail (i - 0) 0 rfl (Nat.zero_le i)
      (fun j _ h2 => hok j h2)
  rw [main_eq_run env hini hn hm]
  rw [← hnn, hct]
  simp only [Nat.sub_zero, if_pos hi]
  refine ⟨?_, ?_, ?_, ?_, ?_, ?_⟩
  · simp
  · simp
  · simp
  · simp
  · simp only [List.append_assoc, spawnsOf_append]
    rw [spawnsOf_eq_nil (init_no_spawn env)]
    rw [spawnsOf_eq_nil (l := [Action.logLine "Starting PG-Strom OpenCL Server"])
        (by intro a ha; fin_cases ha; rfl)]
    rw [spawnsOf_map_spawn]
    rw [spawnsOf_eq_nil (l := [Action.logLine "failed to create server threads",
          Action.setExitFlag, Action.cancelQueue])
        (by intro a ha; fin_cases ha <;> rfl)]
    rw [spawnsOf_eq_nil (fun a ha => (map_join_flags _ a ha).1)]
    rw [spawnsOf_eq_nil (l := [Action.logLine "Stopping PG-Strom OpenCL Server",
          Action.closeQueue]) (by intro a ha; fin_cases ha <;> rfl)]
    simp [List.range_eq_range']
  · simp only [List.append_assoc, joinsOf_append]
    rw [joinsOf_eq_nil (init_no_join env)]
    rw [joinsOf_eq_nil (l := [Action.logLine "Starting PG-Strom OpenCL Server"])
        (by intro a ha; fin_cases ha; rfl)]
    rw [joinsOf_eq_nil (fun a ha => (map_spawn_flags _ a ha).1)]
    rw [joinsOf_eq_nil (l := [Action.logLine "failed to create server threads",
          Action.setExitFlag, Action.cancelQueue])
        (by intro a ha; fin_cases ha <;> rfl)]
    rw [joinsOf_map_join]
    rw [joinsOf_eq_nil (l := [Action.logLine "Stopping PG-Strom OpenCL Server",
          Action.closeQueue]) (by intro a ha; fin_cases ha <;> rfl)]
    simp

/-- C5: the resolved worker count is the configured
`pgstrom.opencl_num_threads` when nonzero, otherwise the host processor
count; when the resolved count is zero or negative the `Assert` stops
startup (`WorkerCountInvalid`) with no worker spawned, and when it is
positive startup never fails with `WorkerCountInvalid`. -/
theorem C5_worker_count_resolution (env : MainEnv)
    (hctx : env.ctxOk = true) (hq : false ∉ env.qOk) :
    ((env.config ≠ 0 →
        (if env.config = 0 then env.nproc else env.config) = env.config)
     ∧ (env.config = 0 →
        (if env.config = 0 then env.nproc else env.config) = env.nproc))
    ∧ ((if env.config = 0 then env.nproc else env.config) ≤ 0 →
        (pgstrom_opencl_main env).2 = some .WorkerCountInvalid
        ∧ spawnsOf (pgstrom_opencl_main env).1 = [])
    ∧ (0 < (if env.config = 0 then env.nproc else env.config) →
        (pgstrom_opencl_main env).2 ≠ some .WorkerCountInvalid) := by
  have hini : (init_opencl_context_and_shmem env).2.1 = none := by
    rw [init_ok env hctx hq]
  refine ⟨⟨fun h => by simp [h], fun h => by simp [h]⟩, ?_, ?_⟩
  · intro hn
    rw [main_eq_invalid_count env hini hn]
    refine ⟨rfl, ?_⟩
    refine spawnsOf_eq_nil (all_append _ (init_no_spawn env) ?_)
    intro a ha; fin_cases ha; rfl
  · intro hpos
    have hn : ¬ (if env.config = 0 then env.nproc else env.config) ≤ 0 := by omega
    by_cases hm : env.mallocOk = false
    · rw [main_eq_oom env hini hn hm]; simp
    · have hm2 : env.mallocOk = true := by
        cases hmv : env.mallocOk
        · exact absurd hmv hm
        · rfl
      rw [main_eq_run env hini hn hm2]; simp

end OpenclServ
namespace OpenclServ

/-- C4: on shutdown every spawned worker is joined — the joined indices
are exactly the spawned indices in reverse-creation order — and no
`joinWorker` occurs at or after the `closeQueue` action: the server queue
is closed and drained only after all workers have been joined, in every
execution of the main routine. -/
theorem C4_join_all_then_close (env : MainEnv) :
    joinsOf (pgstrom_opencl_main env).1
      = (spawnsOf (pgstrom_opencl_main env).1).reverse
    ∧ joinAfterClose (pgstrom_opencl_main env).1 = false := by
  rcases hini : (init_opencl_context_and_shmem env).2.1 with _ | e
  · by_cases hn : (if env.config = 0 then env.nproc else env.config) ≤ 0
    · rw [main_eq_invalid_count env hini hn]
      have hlog : ∀ a ∈ [Action.logLine "Starting PG-Strom OpenCL Server"],
          isJoin a = false ∧ isSpawn a = false ∧ isClose a = false := by
        intro a ha; fin_cases ha; exact ⟨rfl, rfl, rfl⟩
      refine ⟨?_, joinAfterClose_of_no_close _
        (all_append _ (init_no_close env) (fun a ha => (hlog a ha).2.2))⟩
      rw [joinsOf_eq_nil (all_append _ (init_no_join env) (fun a ha => (hlog a ha).1)),
          spawnsOf_eq_nil (all_append _ (init_no_spawn env) (fun a ha => (hlog a ha).2.1))]
      rfl
    · by_cases hm : env.mallocOk = false
      · rw [main_eq_oom env hini hn hm]
        have hlog : ∀ a ∈ [Action.logLine "Starting PG-Strom OpenCL Server",
                           Action.logLine "out of memory"],
            isJoin a = false ∧ isSpawn a = false ∧ isClose a = false := by
          intro a ha; fin_cases ha <;> exact ⟨rfl, rfl, rfl⟩
        refine ⟨?_, joinAfterClose_of_no_close _
          (all_append _ (init_no_close env) (fun a ha => (hlog a ha).2.2))⟩
        rw [joinsOf_eq_nil (all_append _ (init_no_join env) (fun a ha => (hlog a ha).1)),
            spawnsOf_eq_nil (all_append _ (init_no_spawn env) (fun a ha => (hlog a ha).2.1))]
        rfl
      · have hm2 : env.mallocOk = true := by
          cases hmv : env.mallocOk
          · exact absurd hmv hm
          · rfl
        rw [main_eq_run env hini hn hm2]
        set nn := (if env.config = 0 then env.nproc else env.config).toNat with hnn
        obtain ⟨hct1, -⟩ := createThreads_spec env.createOk (nn - 0) 0 nn rfl
        set f := (createThreads env.createOk 0 nn).2 with hf
        have hbranch : ∀ a ∈ (if f < nn then
              [Action.logLine "failed to create server threads",
               Action.setExitFlag, Action.cancelQueue]
            else [Action.logLine "server threads are up"]),
            isJoin a = false ∧ isSpawn a = false ∧ isClose a = false := by
          split <;> (intro a ha; fin_cases ha <;> exact ⟨rfl, rfl, rfl⟩)
        have hstart : ∀ a ∈ [Action.logLine "Starting PG-Strom OpenCL Server"],
            isJoin a = false ∧ isSpawn a = false ∧ isClose a = false := by
          intro a ha; fin_cases ha; exact ⟨rfl, rfl, rfl⟩
        have hstop : ∀ a ∈ [Action.logLine "Stopping PG-Strom OpenCL Server",
                            Action.closeQueue],
            isJoin a = false ∧ isSpawn a = false := by
          intro a ha; fin_cases ha <;> exact ⟨rfl, rfl⟩
        constructor
        · simp only [List.append_assoc, joinsOf_append, spawnsOf_append]
          rw [joinsOf_eq_nil (init_no_join env),
              spawnsOf_eq_nil (init_no_spawn env),
              joinsOf_eq_nil (fun a ha => (hstart a ha).1),
              spawnsOf_eq_nil (fun a ha => (hstart a ha).2.1),
              joinsOf_eq_nil (fun a ha => (hbranch a ha).1),
              spawnsOf_eq_nil (fun a ha => (hbranch a ha).2.1),
              hct1,
              joinsOf_eq_nil (fun a ha => (map_spawn_flags _ a ha).1),
              spawnsOf_map_spawn,
              joinsOf_map_join,
              spawnsOf_eq_nil (fun a ha => (map_join_flags _ a ha).1),
              joinsOf_eq_nil (fun a ha => (hstop a ha).1),
              spawnsOf_eq_nil (fun a ha => (hstop a ha).2)]
          simp [List.range_eq_range']
        · simp only [List.append_assoc]
          refine joinAfterClose_append _ _ (init_no_close env) ?_
          refine joinAfterClose_append _ _ (fun a ha => (hstart a ha).2.2) ?_
          rw [hct1]
          refine joinAfterClose_append _ _ (fun a ha => (map_spawn_flags _ a ha).2.2) ?_
          refine joinAfterClose_append _ _ (fun a ha => (hbranch a ha).2.2) ?_
          refine joinAfterClose_append _ _ (fun a ha => (map_join_flags _ a ha).2.2) ?_
          decide
  · rw [main_eq_of_init_fail env e hini]
    refine ⟨?_, joinAfterClose_of_no_close _ (init_no_close env)⟩
    rw [joinsOf_eq_nil (init_no_join env), spawnsOf_eq_nil (init_no_spawn env)]
    rfl

/-- C6: exactly one command queue is created per registered device —
on full success the created queue indices are precisely
`0..deviceCount-1` — all of them before any worker thread is spawned, and
failure of any single queue creation aborts startup with
`DeviceInitError` with no worker spawned (no partial device set). -/
theorem C6_one_queue_per_device (env : MainEnv)
    (hlen : env.qOk.length = env.devMaxAlloc.length)
    (hctx : env.ctxOk = true) :
    (false ∈ env.qOk →
       (pgstrom_opencl_main env).2 = some .DeviceInitError
       ∧ spawnsOf (pgstrom_opencl_main env).1 = [])
    ∧ (false ∉ env.qOk →
       queuesOf (pgstrom_opencl_main env).1
         = List.range env.devMaxAlloc.length)
    ∧ queueAfterSpawn (pgstrom_opencl_main env).1 = false := by
  refine ⟨?_, ?_, ?_⟩
  · intro hq
    have hini := init_fail env hctx hq hlen
    rw [main_eq_of_init_fail env _ hini]
    exact ⟨rfl, spawnsOf_eq_nil (init_no_spawn env)⟩
  · intro hq
    obtain ⟨rest, hrest, hrq⟩ := mainTraceStartsWithInit env
    rw [hrest, queuesOf_append, queuesOf_eq_nil hrq, List.append_nil]
    rw [init_ok env hctx hq]
    have hlen2 : (env.devMaxAlloc.zip env.qOk).length = env.devMaxAlloc.length := by
      rw [List.length_zip]; omega
    rw [show (Action.createContext ::
        (List.range' 0 (env.devMaxAlloc.zip env.qOk).length).map Action.createQueue
        ++ [Action.logLine "PG-Strom: setting up shared memory",
            Action.setupShmem ((env.devMaxAlloc.zip env.qOk).foldl
              (fun z p => if z > p.1 then p.1 else z) LONG_MAX)])
      = [Action.createContext]
        ++ ((List.range' 0 (env.devMaxAlloc.zip env.qOk).length).map Action.createQueue
        ++ [Action.logLine "PG-Strom: setting up shared memory",
            Action.setupShmem ((env.devMaxAlloc.zip env.qOk).foldl
              (fun z p => if z > p.1 then p.1 else z) LONG_MAX)]) from rfl]
    rw [queuesOf_append, queuesOf_append, queuesOf_map_queue]
    rw [queuesOf_eq_nil (l := [Action.createContext]) (by intro a ha; fin_cases ha; rfl),
        queuesOf_eq_nil (by intro a ha; fin_cases ha <;> rfl)]
    rw [hlen2, List.range_eq_range']
    simp
  · obtain ⟨rest, hrest, hrq⟩ := mainTraceStartsWithInit env
    rw [hrest]
    exact queueAfterSpawn_split _ _ (init_no_spawn env) hrq

/-- C8: the zone length handed to `pgstrom_setup_shmem` is the fold of
the source loop, which equals the minimum over all registered devices of
`dev_max_mem_alloc_size` starting from the upper bound `LONG_MAX`: it is
`LONG_MAX` for an empty device list and never exceeds any device's
maximum single-allocation size. -/
theorem C8_zone_length_min (env : MainEnv)
    (hlen : env.qOk.length = env.devMaxAlloc.length)
    (hctx : env.ctxOk = true) (hq : false ∉ env.qOk) :
    Action.setupShmem
        (env.devMaxAlloc.foldl (fun z d => if z > d then d else z) LONG_MAX)
      ∈ (pgstrom_opencl_main env).1
    ∧ env.devMaxAlloc.foldl (fun z d => if z > d then d else z) LONG_MAX
        = env.devMaxAlloc.foldl Nat.min LONG_MAX
    ∧ (env.devMaxAlloc = [] →
        env.devMaxAlloc.foldl (fun z d => if z > d then d else z) LONG_MAX
          = LONG_MAX)
    ∧ ∀ d ∈ env.devMaxAlloc,
        env.devMaxAlloc.foldl (fun z d => if z > d then d else z) LONG_MAX
          ≤ d := by
  refine ⟨?_, foldl_zone_eq_min _ _, fun h => by rw [h]; rfl, ?_⟩
  · obtain ⟨rest, hrest, -⟩ := mainTraceStartsWithInit env
    rw [hrest]
    refine List.mem_append.mpr (.inl ?_)
    rw [init_ok env hctx hq]
    rw [zip_foldl_fst _ _ _ hlen.symm]
    simp
  · intro d hd
    rw [foldl_zone_eq_min]
    exact foldl_min_le_mem _ _ _ hd

/-- C10: if `malloc` of the worker-handle array fails, the main routine
logs "out of memory" and returns immediately: the trace ends right after
that log line, no worker is ever spawned, and `closeQueue` never occurs
on that path (queued messages are not failed back). -/
theorem C10_oom_return (env : MainEnv)
    (hctx : env.ctxOk = true) (hq : false ∉ env.qOk)
    (hn : ¬ (if env.config = 0 then env.nproc else env.config) ≤ 0)
    (hm : env.mallocOk = false) :
    pgstrom_opencl_main env
      = ((init_opencl_context_and_shmem env).1
          ++ [.logLine "Starting PG-Strom OpenCL Server",
              .logLine "out of memory"], none)
    ∧ spawnsOf (pgstrom_opencl_main env).1 = []
    ∧ Action.closeQueue ∉ (pgstrom_opencl_main env).1 := by
  have hini : (init_opencl_context_and_shmem env).2.1 = none := by
    rw [init_ok env hctx hq]
  have hmain := main_eq_oom env hini hn hm
  refine ⟨hmain, ?_, ?_⟩
  · rw [hmain]
    refine spawnsOf_eq_nil (all_append _ (init_no_spawn env) ?_)
    intro a ha; fin_cases ha <;> rfl
  · rw [hmain]
    intro hmem
    rcases List.mem_append.mp hmem with h | h
    · have h2 := init_no_close env _ h
      simp [isClose] at h2
    · simp at h
end OpenclServ
namespace OpenclServ

theorem applyServOp_exitPending (op : ServOp) (s : ServState) :
    (applyServOp op s).exitPending = true := by
  cases op <;> rfl

theorem flagTrace_shape (ops : List ServOp) (s : ServState) :
    ∃ t, flagTrace ops s = s.exitPending :: t := by
  cases ops with
  | nil => exact ⟨[], rfl⟩
  | cons op ops => exact ⟨_, rfl⟩

theorem flagTrace_all_true (ops : List ServOp) :
    ∀ s : ServState, s.exitPending = true →
      ∀ b ∈ flagTrace ops s, b = true := by
  induction ops with
  | nil =>
      intro s hs b hb
      simp only [flagTrace, List.mem_singleton] at hb
      exact hb ▸ hs
  | cons op ops ih =>
      intro s hs b hb
      simp only [flagTrace, List.mem_cons] at hb
      rcases hb with rfl | hb
      · exact hs
      · exact ih _ (applyServOp_exitPending op s) b hb

theorem countRises_all_true :
    ∀ l : List Bool, (∀ b ∈ l, b = true) → countRises l = 0 := by
  intro l
  induction l with
  | nil => intro _; rfl
  | cons a t ih =>
      intro h
      cases t with
      | nil => rfl
      | cons b t2 =>
          have ha : a = true := h a (by simp)
          rw [countRises, ih (fun x hx => h x (List.mem_cons_of_mem _ hx))]
          simp [ha]

theorem monotoneBools_flagTrace (ops : List ServOp) :
    ∀ s : ServState, monotoneBools (flagTrace ops s) = true := by
  induction ops with
  | nil => intro s; rfl
  | cons op ops ih =>
      intro s
      obtain ⟨t, ht⟩ := flagTrace_shape ops (applyServOp op s)
      have hh : (applyServOp op s).exitPending = true :=
        applyServOp_exitPending op s
      have htail : monotoneBools (true :: t) = true := by
        have h2 := ih (applyServOp op s)
        rw [ht, hh] at h2
        exact h2
      show monotoneBools (s.exitPending :: flagTrace ops (applyServOp op s)) = true
      rw [ht, hh, monotoneBools]
      simp [htail]

theorem countRises_flagTrace (ops : List ServOp) :
    ∀ s : ServState, countRises (flagTrace ops s) ≤ 1 := by
  cases ops with
  | nil => intro s; rw [flagTrace, countRises]; omega
  | cons op ops =>
      intro s
      obtain ⟨t, ht⟩ := flagTrace_shape ops (applyServOp op s)
      have hh : (applyServOp op s).exitPending = true :=
        applyServOp_exitPending op s
      have htail : countRises (true :: t) = 0 := by
        have h2 := countRises_all_true _ (flagTrace_all_true ops _ hh)
        rw [ht, hh] at h2
        exact h2
      show countRises (s.exitPending :: flagTrace ops (applyServOp op s)) ≤ 1
      rw [ht, hh, countRises, htail]
      split_ifs <;> omega

/-- C7: the termination (SIGTERM) and reload (SIGHUP) handlers have the
same effect on the shutdown state — each sets the shared shutdown flag
and requests queue cancellation — and the flag is monotone: every
flag-writing operation of the file assigns only `true`, so along any
sequence of such operations the flag never falls back from `true` to
`false` and makes at most one `false → true` transition. -/
theorem C7_signals_and_flag_monotone (s0 : ServState) :
    ((pgstrom_opencl_sigterm s0).exitPending = true
     ∧ (pgstrom_opencl_sigterm s0).cancelRequested = true
     ∧ (pgstrom_opencl_sighup s0).exitPending = true
     ∧ (pgstrom_opencl_sighup s0).cancelRequested = true)
    ∧ ((pgstrom_opencl_sigterm s0).exitPending
        = (pgstrom_opencl_sighup s0).exitPending
     ∧ (pgstrom_opencl_sigterm s0).cancelRequested
        = (pgstrom_opencl_sighup s0).cancelRequested)
    ∧ (∀ op : ServOp, (applyServOp op s0).exitPending = true)
    ∧ (∀ ops : List ServOp,
        monotoneBools (flagTrace ops s0) = true
        ∧ countRises (flagTrace ops s0) ≤ 1) := by
  exact ⟨⟨rfl, rfl, rfl, rfl⟩, ⟨rfl, rfl⟩,
    fun op => applyServOp_exitPending op s0,
    fun ops => ⟨monotoneBools_flagTrace ops s0, countRises_flagTrace ops s0⟩⟩

/-- C9: the log writer is NOT bounded as claimed.  `ofs` accumulates the
RETURN values of `snprintf`/`vsnprintf` — the untruncated would-be
lengths — so with a 20-byte header and a message formatting to 9000
bytes, the first two writes stay inside the 8192-byte `buf` (the second
truncates), but the final newline `snprintf` targets `buf+9020` with the
wrapped `size_t` size `2^64 - 828` and stores 2 bytes outside the
buffer. -/
theorem C9_log_buffer_overflow :
    writeWithinBuf 0 20 = true
    ∧ writeWithinBuf 20 9000 = true
    ∧ writeWithinBuf 9020 1 = false
    ∧ clservLogSafe 20 9000 = false := by decide

end OpenclServ
namespace OpenclServ


theorem C3_partial_startup_witness :
    ((∀ j < 2, envC3.createOk j = true) ∧ envC3.createOk 2 = false
      ∧ 2 < (if envC3.config = 0 then envC3.nproc else envC3.config).toNat)
    ∧ ((pgstrom_opencl_main envC3).2 = none
       ∧ Action.logLine "failed to create server threads"
           ∈ (pgstrom_opencl_main envC3).1
       ∧ Action.setExitFlag ∈ (pgstrom_opencl_main envC3).1
       ∧ Action.cancelQueue ∈ (pgstrom_opencl_main envC3).1
       ∧ spawnsOf (pgstrom_opencl_main envC3).1 = List.range 2
       ∧ joinsOf (pgstrom_opencl_main envC3).1 = (List.range 2).reverse) :=
  ⟨⟨by decide, by decide, by decide⟩,
   C3_partial_startup_all_or_nothing envC3 2 rfl (by decide) (by decide) rfl (by decide)
     (by decide) (by decide)⟩


theorem C5_worker_count_witness :
    (envC5.ctxOk = true ∧ false ∉ envC5.qOk)
    ∧ (((envC5.config ≠ 0 →
          (if envC5.config = 0 then envC5.nproc else envC5.config) = envC5.config)
       ∧ (envC5.config = 0 →
          (if envC5.config = 0 then envC5.nproc else envC5.config) = envC5.nproc))
      ∧ ((if envC5.config = 0 then envC5.nproc else envC5.config) ≤ 0 →
          (pgstrom_opencl_main envC5).2 = some .WorkerCountInvalid
          ∧ spawnsOf (pgstrom_opencl_main envC5).1 = [])
      ∧ (0 < (if envC5.config = 0 then envC5.nproc else envC5.config) →
          (pgstrom_opencl_main envC5).2 ≠ some .WorkerCountInvalid)) :=
  ⟨⟨rfl, by decide⟩, C5_worker_count_resolution envC5 rfl (by decide)⟩


theorem C6_one_queue_per_device_witness :
    (envC6.qOk.length = envC6.devMaxAlloc.length ∧ envC6.ctxOk = true)
    ∧ ((false ∈ envC6.qOk →
         (pgstrom_opencl_main envC6).2 = some .DeviceInitError
         ∧ spawnsOf (pgstrom_opencl_main envC6).1 = [])
      ∧ (false ∉ envC6.qOk →
         queuesOf (pgstrom_opencl_main envC6).1
           = List.range envC6.devMaxAlloc.length)
      ∧ queueAfterSpawn (pgstrom_opencl_main envC6).1 = false) :=
  ⟨⟨rfl, rfl⟩, C6_one_queue_per_device envC6 rfl rfl⟩


theorem C8_zone_length_witness :
    (envC8.qOk.length = envC8.devMaxAlloc.length ∧ envC8.ctxOk = true
      ∧ false ∉ envC8.qOk)
    ∧ (Action.setupShmem
          (envC8.devMaxAlloc.foldl (fun z d => if z > d then d else z) LONG_MAX)
        ∈ (pgstrom_opencl_main envC8).1
      ∧ envC8.devMaxAlloc.foldl (fun z d => if z > d then d else z) LONG_MAX
          = envC8.devMaxAlloc.foldl Nat.min LONG_MAX
      ∧ (envC8.devMaxAlloc = [] →
          envC8.devMaxAlloc.foldl (fun z d => if z > d then d else z) LONG_MAX
            = LONG_MAX)
      ∧ ∀ d ∈ envC8.devMaxAlloc,
          envC8.devMaxAlloc.foldl (fun z d => if z > d then d else z) LONG_MAX
            ≤ d) :=
  ⟨⟨rfl, rfl, by decide⟩, C8_zone_length_min envC8 rfl rfl (by decide)⟩


theorem C10_oom_return_witness :
    (envC10.ctxOk = true ∧ false ∉ envC10.qOk ∧ envC10.mallocOk = false)
    ∧ (pgstrom_opencl_main envC10
        = ((init_opencl_context_and_shmem envC10).1
            ++ [.logLine "Starting PG-Strom OpenCL Server",
                .logLine "out of memory"], none)
      ∧ spawnsOf (pgstrom_opencl_main envC10).1 = []
      ∧ Action.closeQueue ∉ (pgstrom_opencl_main envC10).1) :=
  ⟨⟨rfl, by decide, rfl⟩, C10_oom_return envC10 rfl (by decide) (by decide) rfl⟩

end OpenclServ
